import Mathlib

/-
  Shallow embedding of src/plugins/data_processor.py (fuel exports ETL).

  A pandas DataFrame is modelled as an association list from column names to
  columns; a column is a list of cell values.  A cell value is one of the
  shapes that occur in this pipeline: the missing marker (None/NaN/NaT is
  modelled by one constructor, null), booleans, numbers (int and float are
  collapsed into one rational-valued constructor, so the downcast argument of
  to_numeric is not observable), strings, lists of strings (the parquet
  list-of-string shape of the services column), key-value structures with
  scalar values (the dock struct), timestamps and calendar dates.

  Library semantics modelled, per the pandas documentation:
  - Series.apply maps the function over the cells.
  - Column assignment overwrites an existing column in place and appends a
    fresh column at the end; drop removes the column.
  - astype(bool) applies the Python truthiness rule to each cell; the missing
    marker is modelled as None, whose truthiness is false.
  - to_numeric with errors="coerce" turns every unconvertible cell into the
    missing marker; numeric strings are parsed (a sign, digits and an optional
    fraction part are modelled; exponents are not, no claim exercises them).
  - to_datetime maps missing to missing (NaT), keeps timestamps, converts
    dates and epoch numbers to timestamps, parses ISO-format datetime strings
    (YYYY-MM-DD, optionally followed by a space or T and HH:MM:SS; the other
    string formats pandas accepts are not modelled, and no claim depends on a
    string datetime cell), and raises on unparseable strings, booleans, lists
    and structs.
  - fillna with a dict loops over the entries and calls the column fill for
    each listed column that is present (absent columns are skipped, and no
    column is ever created); a None fill value makes that per-column fill
    raise ValueError (Must specify a fill value or method), so the dock_bay
    and dock_level entries raise whenever such a column is present.
  - duplicated().any() is true exactly when some value repeats; it raises on
    unhashable cells (lists, structs).
  - An order comparison of a column against a number raises on cells that are
    not numeric, boolean or missing; comparisons on missing cells are false.

  Fallible operations return Except String, an exception being modelled by
  the error case.
-/

/-- Decidable equality for exception-carrying results. -/
instance {ε α : Type} [DecidableEq ε] [DecidableEq α] : DecidableEq (Except ε α) :=
  fun a b =>
    match a, b with
    | .error e, .error f =>
        if h : e = f then .isTrue (by rw [h])
        else .isFalse (fun c => h (Except.error.inj c))
    | .error _, .ok _ => .isFalse (fun c => Except.noConfusion c)
    | .ok _, .error _ => .isFalse (fun c => Except.noConfusion c)
    | .ok x, .ok y =>
        if h : x = y then .isTrue (by rw [h])
        else .isFalse (fun c => h (Except.ok.inj c))

namespace FuelETL

/-- Scalar values stored inside a dock struct. -/
inductive DValue where
  | null
  | bool (b : Bool)
  | num (q : Rat)
  | str (s : String)
deriving DecidableEq, Repr

/-- One cell of a table. -/
inductive Value where
  | null
  | bool (b : Bool)
  | num (q : Rat)
  | str (s : String)
  | list (l : List String)
  | dict (entries : List (String × DValue))
  | timestamp (t : Int)
  | date (d : Int)
deriving DecidableEq, Repr

/-- A DataFrame: association list from column names to columns of cells. -/
abbrev Table := List (String × List Value)

/-- Membership test for a column name, as in: name in df.columns. -/
def hasCol (t : Table) (c : String) : Bool :=
  (t.lookup c).isSome

/-- The cells of a column, empty when the column is absent. -/
def colD (t : Table) (c : String) : List Value :=
  (t.lookup c).getD []

/-- Column assignment df[c] = v: overwrite in place, else append at the end. -/
def setCol : Table → String → List Value → Table
  | [], c, v => [(c, v)]
  | (n, col) :: rest, c, v =>
      if n = c then (c, v) :: rest else (n, col) :: setCol rest c v

/-- df.drop(c, axis=1): remove the column. -/
def dropCol (t : Table) (c : String) : Table :=
  t.filter (fun p => p.1 ≠ c)

/-- Map a function over the cells of one column when it is present
    (df[c] = df[c].apply(f) guarded by: if c in df.columns). -/
def mapCol (t : Table) (c : String) (f : Value → Value) : Table :=
  if hasCol t c then setCol t c ((colD t c).map f) else t

/-- Python truthiness of a cell, as used by astype(bool).  The missing
    marker is modelled as None, so its truthiness is false. -/
def Value.truthy : Value → Bool
  | .null => false
  | .bool b => b
  | .num q => q ≠ 0
  | .str s => s ≠ ""
  | .list l => ¬ l.isEmpty
  | .dict d => ¬ d.isEmpty
  | .timestamp _ => true
  | .date _ => true

/-- Embed a dock-struct scalar into a cell value. -/
def DValue.toValue : DValue → Value
  | .null => .null
  | .bool b => .bool b
  | .num q => .num q
  | .str s => .str s

/-- Python dict.get(k): the value at k, None when absent. -/
def dictGet (d : List (String × DValue)) (k : String) : Value :=
  ((d.lookup k).map DValue.toValue).getD .null

/-- lambda x: x.get(k) if isinstance(x, dict) else None. -/
def extractDock (k : String) : Value → Value
  | .dict d => dictGet d k
  | _ => .null

/-- The dock handling block: extract bay and level, then drop dock. -/
def dockStep (t : Table) : Table :=
  if hasCol t "dock" then
    let dcol := colD t "dock"
    dropCol (setCol (setCol t "dock_bay" (dcol.map (extractDock "bay")))
      "dock_level" (dcol.map (extractDock "level"))) "dock"
  else t

/-- lambda x: ",".join(x) if isinstance(x, list) and x else "". -/
def joinServices : Value → Value
  | .list l => if l.isEmpty then .str "" else .str (String.intercalate "," l)
  | _ => .str ""

/-- The services handling block. -/
def servicesStep (t : Table) : Table :=
  mapCol t "services" joinServices

/-- Apply a fallible cell operation across a column, propagating the first
    exception (the semantics of a column-wise pandas conversion). -/
def mapExcept {α β : Type} (f : α → Except String β) :
    List α → Except String (List β)
  | [] => .ok []
  | a :: rest => do
      let b ← f a
      let bs ← mapExcept f rest
      pure (b :: bs)

/-- Digits of a decimal literal. -/
def parseDigits? (s : List Char) : Option Nat :=
  if s.isEmpty then none
  else if s.all (fun c => c.isDigit) then
    some (s.foldl (fun a c => 10 * a + (c.toNat - 48)) 0)
  else none

/-- Split a character list on a separator. -/
def splitOnChar (sep : Char) : List Char → List (List Char)
  | [] => [[]]
  | c :: rest =>
      let r := splitOnChar sep rest
      if c = sep then [] :: r
      else
        match r with
        | h :: t => (c :: h) :: t
        | [] => [[c]]

def isLeapYear (y : Int) : Bool :=
  (y % 4 == 0 && y % 100 != 0) || y % 400 == 0

def daysInMonth (y : Int) (m : Nat) : Nat :=
  if m = 2 then (if isLeapYear y then 29 else 28)
  else if m = 4 ∨ m = 6 ∨ m = 9 ∨ m = 11 then 30
  else 31

/-- Days since the unix epoch of a civil date (the standard days-from-civil
    computation with floor division). -/
def daysFromCivil (y : Int) (m d : Nat) : Int :=
  let y2 : Int := if m ≤ 2 then y - 1 else y
  let era : Int := Int.fdiv y2 400
  let yoe : Int := y2 - era * 400
  let mp : Nat := if m > 2 then m - 3 else m + 9
  let doy : Int := ((153 * mp + 2) / 5 : Nat) + (d : Int) - 1
  let doe : Int := yoe * 365 + Int.fdiv yoe 4 - Int.fdiv yoe 100 + doy
  era * 146097 + doe - 719468

/-- Datetime-string parsing as done by pd.to_datetime, restricted to the ISO
    shape YYYY-MM-DD optionally followed by a space or T and HH:MM:SS, with
    calendar and clock validation; the further formats pandas accepts are not
    modelled, and no claim depends on a string datetime cell.  The result is
    an epoch-seconds timestamp. -/
def parseDatetime? (s : String) : Option Int :=
  let cs := s.toList
  let datePart := cs.takeWhile (fun c => c ≠ ' ' ∧ c ≠ 'T')
  let timeTail := cs.dropWhile (fun c => c ≠ ' ' ∧ c ≠ 'T')
  match splitOnChar '-' datePart with
  | [ys, ms, ds] =>
      if ys.length = 4 ∧ (ms.length = 1 ∨ ms.length = 2) ∧
          (ds.length = 1 ∨ ds.length = 2) then
        match parseDigits? ys, parseDigits? ms, parseDigits? ds with
        | some y, some m, some d =>
            if 1 ≤ m ∧ m ≤ 12 ∧ 1 ≤ d ∧ d ≤ daysInMonth (y : Int) m then
              match timeTail with
              | [] => some (86400 * daysFromCivil (y : Int) m d)
              | _ :: t =>
                  match splitOnChar ':' t with
                  | [hs, mins, ss] =>
                      if hs.length = 2 ∧ mins.length = 2 ∧ ss.length = 2 then
                        match parseDigits? hs, parseDigits? mins,
                            parseDigits? ss with
                        | some h, some mi, some sec =>
                            if h ≤ 23 ∧ mi ≤ 59 ∧ sec ≤ 59 then
                              some (86400 * daysFromCivil (y : Int) m d +
                                3600 * h + 60 * mi + sec)
                            else none
                        | _, _, _ => none
                      else none
                  | _ => none
            else none
        | _, _, _ => none
      else none
  | _ => none

/-- pd.to_datetime on one cell (utc normalization is not observable in this
    model).  Strings are parsed in the ISO subset of parseDatetime? and raise
    otherwise. -/
def toDatetimeUtc : Value → Except String Value
  | .null => .ok .null
  | .timestamp t => .ok (.timestamp t)
  | .date d => .ok (.timestamp (86400 * d))
  | .num q => .ok (.timestamp q.floor)
  | .str s =>
      match parseDatetime? s with
      | some t => .ok (.timestamp t)
      | none => .error ("to_datetime: unparseable string " ++ s)
  | .bool _ => .error "to_datetime: bool is not convertible"
  | .list _ => .error "to_datetime: list is not convertible"
  | .dict _ => .error "to_datetime: dict is not convertible"

/-- Cells on which the modelled to_datetime succeeds. -/
def datetimeConvertible : Value → Bool
  | .null => true
  | .timestamp _ => true
  | .date _ => true
  | .num _ => true
  | .str s => (parseDatetime? s).isSome
  | _ => false

/-- The visited_at block: pd.to_datetime(df[c], utc=True). -/
def visitedStep (t : Table) : Except String Table :=
  if hasCol t "visited_at" then do
    let c ← mapExcept toDatetimeUtc (colD t "visited_at")
    pure (setCol t "visited_at" c)
  else pure t

/-- Series.dt.date on one cell of a to_datetime result. -/
def dtDate : Value → Value
  | .timestamp t => .date (Int.fdiv t 86400)
  | .null => .null
  | v => v

/-- The arrival_date block: pd.to_datetime(df[c]).dt.date. -/
def arrivalStep (t : Table) : Except String Table :=
  if hasCol t "arrival_date" then do
    let c ← mapExcept toDatetimeUtc (colD t "arrival_date")
    pure (setCol t "arrival_date" (c.map dtDate))
  else pure t

/-- Whitespace characters stripped around numeric strings. -/
def isSpaceChar (c : Char) : Bool :=
  c = ' ' ∨ c = '\t' ∨ c = '\n' ∨ c = '\r'

/-- Strip leading and trailing whitespace from a character list. -/
def trimChars (cs : List Char) : List Char :=
  ((cs.dropWhile isSpaceChar).reverse.dropWhile isSpaceChar).reverse

/-- Numeric-string parsing as done by pd.to_numeric: optional sign, integer
    digits, optional dot and fraction digits, surrounding whitespace allowed.
    Exponent forms are not modelled. -/
def parseNum? (s : String) : Option Rat :=
  let cs := trimChars s.toList
  let signAndRest : Int × List Char :=
    match cs with
    | '-' :: r => (-1, r)
    | '+' :: r => (1, r)
    | r => (1, r)
  let sign := signAndRest.1
  let rest := signAndRest.2
  let intPart := rest.takeWhile (fun c => c ≠ '.')
  let fracTail := rest.dropWhile (fun c => c ≠ '.')
  match fracTail with
  | [] => (parseDigits? intPart).map (fun n => mkRat (sign * n) 1)
  | _ :: fracDigits =>
      if fracDigits.any (fun c => c = '.') then none
      else if intPart.isEmpty ∧ fracDigits.isEmpty then none
      else
        match parseDigits? (if intPart.isEmpty then ['0'] else intPart),
            parseDigits? (if fracDigits.isEmpty then ['0'] else fracDigits) with
        | some i, some f =>
            let base : Nat := 10 ^ fracDigits.length
            some (mkRat (sign * (i * base + f)) base)
        | _, _ => none

/-- pd.to_numeric with errors="coerce" on one cell: unconvertible cells
    become the missing marker, never an exception. -/
def toNumericCoerce : Value → Value
  | .null => .null
  | .bool b => .num (if b then 1 else 0)
  | .num q => .num q
  | .str s =>
      match parseNum? s with
      | some q => .num q
      | none => .null
  | .timestamp t => .num t
  | .date _ => .null
  | .list _ => .null
  | .dict _ => .null

def decimal_columns : List String := ["price_per_unit", "total_cost"]

def float_columns : List String := ["fuel_units", "coords_x", "coords_y"]

def int_columns : List String := ["station_id"]

/-- One numeric-coercion loop of transform_for_postgres.  The downcast
    argument used for int_columns only narrows the storage dtype and is not
    observable on the collapsed number representation. -/
def coerceCols (cols : List String) (t : Table) : Table :=
  cols.foldl (fun acc c => mapCol acc c toNumericCoerce) t

/-- The boolean block: df[c].astype(bool). -/
def boolStep (t : Table) : Table :=
  mapCol t "is_emergency" (fun v => .bool v.truthy)

/-- Replace a missing cell by the fill value. -/
def fillWith (fill : Value) (v : Value) : Value :=
  if v = .null then fill else v

/-- One entry of a dict-valued fillna: an absent column is skipped; for a
    present column, Series.fillna is called with the fill value, and pandas
    rejects a None fill value with ValueError (Must specify a fill value or
    method) before touching any cell. -/
def fillColNa (t : Table) (c : String) (fill : Value) : Except String Table :=
  if hasCol t c then
    if fill = .null then
      .error "ValueError: Must specify a fill value or method"
    else .ok (setCol t c ((colD t c).map (fillWith fill)))
  else .ok t

/-- df.fillna applied with the source dict of per-column defaults, in dict
    order: dock_bay and dock_level carry a None fill value, so either of
    those columns being present raises. -/
def fillnaStep (t : Table) : Except String Table :=
  fillColNa t "dock_bay" .null >>= fun t1 =>
    fillColNa t1 "dock_level" .null >>= fun t2 =>
      fillColNa t2 "services" (.str "") >>= fun t3 =>
        fillColNa t3 "is_emergency" (.bool false)

/-- The pure effect of a successful fillnaStep: fill the services and
    is_emergency columns (the dock_bay and dock_level entries succeed only
    when those columns are absent, leaving the table untouched). -/
def postFill (t : Table) : Table :=
  mapCol (mapCol t "services" (fillWith (.str "")))
    "is_emergency" (fillWith (.bool false))

/-- The three numeric-coercion loops in source order. -/
def numericSteps (t : Table) : Table :=
  coerceCols int_columns (coerceCols float_columns (coerceCols decimal_columns t))

/-- All columns subject to numeric coercion. -/
def numeric_columns : List String :=
  decimal_columns ++ float_columns ++ int_columns

/-- Columns that some rule of transform_for_postgres writes, drops or fills. -/
def touched_columns : List String :=
  ["dock", "dock_bay", "dock_level", "services", "visited_at", "arrival_date"]
    ++ numeric_columns ++ ["is_emergency"]

/-- DataProcessor.transform_for_postgres. -/
def transform_for_postgres (df : Table) : Except String Table := do
  let t1 := servicesStep (dockStep df)
  let t2 ← visitedStep t1
  let t3 ← arrivalStep t2
  fillnaStep (boolStep (numericSteps t3))

def required_columns : List String :=
  ["transaction_id", "station_id", "ship_name", "fuel_type", "visited_at"]

/-- The required columns absent from the table. -/
def missingColumns (df : Table) : List String :=
  required_columns.filter (fun c => ¬ hasCol df c)

/-- Python hashability of a cell (lists and dicts are unhashable). -/
def hashableValue : Value → Bool
  | .list _ => false
  | .dict _ => false
  | _ => true

/-- Cells that an order comparison against a number accepts. -/
def rangeComparable : Value → Bool
  | .null => true
  | .bool _ => true
  | .num _ => true
  | _ => false

/-- df[c].duplicated().any(): true when some value repeats; raises on
    unhashable cells. -/
def duplicatedAny (col : List Value) : Except String Bool :=
  if col.all hashableValue then .ok (decide (¬ col.Nodup))
  else .error "TypeError: unhashable value in column"

/-- Order comparison of one cell against a number: missing compares false
    (NaN semantics); booleans compare as 0 and 1; anything else raises. -/
def ltScalar : Value → Rat → Except String Bool
  | .null, _ => .ok false
  | .bool b, r => .ok ((if b then (1 : Rat) else 0) < r)
  | .num q, r => .ok (q < r)
  | _, _ => .error "TypeError: unordered comparison with a number"

def gtScalar : Value → Rat → Except String Bool
  | .null, _ => .ok false
  | .bool b, r => .ok (r < (if b then (1 : Rat) else 0))
  | .num q, r => .ok (r < q)
  | _, _ => .error "TypeError: unordered comparison with a number"

/-- (df[c] < r).any(). -/
def seriesLtAny (col : List Value) (r : Rat) : Except String Bool :=
  (mapExcept (fun v => ltScalar v r) col).map (fun bs => bs.any id)

/-- (df[c] > r).any(). -/
def seriesGtAny (col : List Value) (r : Rat) : Except String Bool :=
  (mapExcept (fun v => gtScalar v r) col).map (fun bs => bs.any id)

/-- One soft-range check: (df[c] < lo).any() or (df[c] > hi).any(), with the
    Python short circuit; only the logged warning depends on the result, so
    the observable outcome is unit or an exception. -/
def rangeCheck (col : List Value) (lo hi : Rat) : Except String Unit := do
  let a ← seriesLtAny col lo
  if a then pure () else do
    let _ ← seriesGtAny col hi
    pure ()

/-- DataProcessor.validate_data. -/
def validate_data (df : Table) : Except String Bool :=
  if ¬ (missingColumns df).isEmpty then .ok false
  else
    duplicatedAny (colD df "transaction_id") >>= fun dup =>
      if dup then .ok false
      else
        (if hasCol df "fuel_units" then rangeCheck (colD df "fuel_units") 0 10000
         else .ok ()) >>= fun _ =>
          (if hasCol df "station_id" then
            rangeCheck (colD df "station_id") 1000 9999
           else .ok ()) >>= fun _ =>
            .ok true

/-- FileTracker.get_processed_files.  The collaborator behavior is the result
    of get_records: an exception or a list of row tuples, each a list of cell
    strings.  The set comprehension takes the first cell of each row (an
    IndexError on an empty tuple is caught by the same except clause); any
    exception inside the try block degrades to the empty set. -/
def get_processed_files (records : Except String (List (List String))) :
    List String :=
  match records >>= (fun rs => mapExcept (fun r =>
      match r.head? with
      | some f => Except.ok f
      | none => Except.error "IndexError: tuple index out of range") rs) with
  | .ok files => files.dedup
  | .error _ => []

/-!  Concrete tables used to instantiate the theorems.  -/

def dfHardFail : Table :=
  [("transaction_id", [Value.str "t1"]), ("station_id", [Value.null]),
   ("ship_name", [Value.str "Aurora"]), ("fuel_type", [Value.str "dilithium"]),
   ("visited_at", [Value.timestamp 0]), ("fuel_units", [Value.str "abc"])]

def dfValidOk : Table :=
  [("transaction_id", [Value.str "t1", Value.str "t2"]),
   ("station_id", [Value.num 500, Value.null]),
   ("ship_name", [Value.str "Aurora", Value.str "Beagle"]),
   ("fuel_type", [Value.str "gas", Value.str "ion"]),
   ("visited_at", [Value.timestamp 0, Value.null]),
   ("fuel_units", [Value.num 20000, Value.null])]

def dfServicesList : Table := [("services", [Value.list ["fuel", "repair"]])]

def dfServicesJoined : Table := [("services", [Value.str "fuel,repair"])]

def dfServicesEmptied : Table := [("services", [Value.str ""])]

def dfServicesNormal : Table :=
  [("services", [Value.list []]), ("ship_name", [Value.str "Zeta"])]

def dfServicesNormalOut : Table :=
  [("services", [Value.str ""]), ("ship_name", [Value.str "Zeta"])]

def dfServicesMixed : Table :=
  [("services", [Value.list ["fuel", "repair"], Value.list [], Value.null,
    Value.str "x"])]

def dfServicesMixedOut : Table :=
  [("services", [Value.str "fuel,repair", Value.str "", Value.str "",
    Value.str ""])]

def dfNoEmergency : Table := [("ship_name", [Value.str "Aurora"])]

def dfEmergency : Table :=
  [("is_emergency", [Value.null, Value.bool true, Value.str ""])]

def dfEmergencyOut : Table :=
  [("is_emergency", [Value.bool false, Value.bool true, Value.bool false])]

def dfPrice : Table :=
  [("price_per_unit", [Value.str "12.5", Value.str "abc", Value.null])]

def dfPriceOut : Table :=
  [("price_per_unit", [Value.num (mkRat 25 2), Value.null, Value.null])]

def dfDock : Table :=
  [("dock", [Value.dict [("bay", DValue.str "A"), ("level", DValue.num 2)],
    Value.null])]

def dfDockNull : Table := [("dock", [Value.null])]

def dfNoDock : Table := [("x", [Value.null])]

def dfCargoMix : Table :=
  [("cargo", [Value.str "ore"]), ("services", [Value.list ["tow"]])]

def dfCargoMixOut : Table :=
  [("cargo", [Value.str "ore"]), ("services", [Value.str "tow"])]

/-!  Basic lemmas about the table primitives.  -/

theorem lookup_cons_eq (k c : String) (b : List Value) (es : Table) :
    List.lookup c ((k, b) :: es) = if c = k then some b else es.lookup c := by
  rw [List.lookup_cons]
  by_cases h : c = k
  · subst h; simp
  · have hb : (c == k) = false := beq_eq_false_iff_ne.mpr h
    simp [hb, h]

theorem lookup_setCol (t : Table) (n c : String) (v : List Value) :
    (setCol t n v).lookup c = if c = n then some v else t.lookup c := by
  induction t with
  | nil =>
      by_cases h : c = n <;> simp [setCol, lookup_cons_eq, h]
  | cons p rest ih =>
      obtain ⟨m, col⟩ := p
      by_cases hm : m = n
      · subst hm
        by_cases h : c = m <;> simp [setCol, lookup_cons_eq, h]
      · by_cases h : c = m
        · subst h
          simp [setCol, hm, lookup_cons_eq, Ne.symm hm]
        · simp [setCol, hm, lookup_cons_eq, h, ih]

theorem lookup_dropCol (t : Table) (n c : String) :
    (dropCol t n).lookup c = if c = n then none else t.lookup c := by
  induction t with
  | nil => simp [dropCol]
  | cons p rest ih =>
      obtain ⟨m, col⟩ := p
      by_cases hm : m = n
      · subst hm
        have : dropCol ((m, col) :: rest) m = dropCol rest m := by
          simp [dropCol, List.filter_cons]
        rw [this, ih]
        by_cases h : c = m <;> simp [h, lookup_cons_eq]
      · have : dropCol ((m, col) :: rest) n = (m, col) :: dropCol rest n := by
          simp [dropCol, List.filter_cons, hm]
        rw [this, lookup_cons_eq]
        by_cases h : c = m
        · subst h
          simp [hm, lookup_cons_eq]
        · simp [h, ih, lookup_cons_eq]

theorem setCol_self (t : Table) (n : String) (v : List Value)
    (h : t.lookup n = some v) : setCol t n v = t := by
  induction t with
  | nil => simp [List.lookup] at h
  | cons p rest ih =>
      obtain ⟨m, col⟩ := p
      by_cases hm : m = n
      · subst hm
        rw [lookup_cons_eq] at h
        simp at h
        simp [setCol, h]
      · rw [lookup_cons_eq] at h
        simp [Ne.symm hm] at h
        simp [setCol, hm, ih h]

theorem lookup_mapCol (t : Table) (n c : String) (f : Value → Value) :
    (mapCol t n f).lookup c =
      if c = n then (t.lookup n).map (List.map f) else t.lookup c := by
  unfold mapCol
  by_cases hp : hasCol t n
  · rw [if_pos hp, lookup_setCol]
    unfold hasCol at hp
    obtain ⟨col, hcol⟩ := Option.isSome_iff_exists.mp hp
    by_cases h : c = n <;> simp [h, colD, hcol]
  · rw [if_neg hp]
    cases hl : t.lookup n with
    | some v => simp [hasCol, hl] at hp
    | none => by_cases h : c = n <;> simp [h, hl]

theorem hasCol_mapCol (t : Table) (n c : String) (f : Value → Value) :
    hasCol (mapCol t n f) c = hasCol t c := by
  unfold hasCol
  rw [lookup_mapCol]
  by_cases h : c = n
  · subst h
    rw [if_pos rfl]
    cases t.lookup c <;> simp
  · rw [if_neg h]

theorem colD_mapCol_self (t : Table) (n : String) (f : Value → Value) :
    colD (mapCol t n f) n = (colD t n).map f := by
  unfold colD
  rw [lookup_mapCol, if_pos rfl]
  cases t.lookup n <;> simp

theorem mapCol_self (t : Table) (n : String) (f : Value → Value)
    (h : ∀ x ∈ colD t n, f x = x) : mapCol t n f = t := by
  unfold mapCol
  by_cases hp : hasCol t n
  · rw [if_pos hp]
    unfold hasCol at hp
    obtain ⟨col, hcol⟩ := Option.isSome_iff_exists.mp hp
    have hcolD : colD t n = col := by simp [colD, hcol]
    have hmap : (colD t n).map f = col := by
      rw [hcolD, List.map_congr_left (fun a ha => h a (hcolD ▸ ha))]
      simp
    rw [hmap]
    exact setCol_self t n col hcol
  · rw [if_neg hp]

/-!  Lemmas about mapExcept.  -/

theorem bindE_error {α β : Type} (e : String) (g : α → Except String β) :
    (Except.error e : Except String α) >>= g = .error e := rfl

theorem bindE_ok {α β : Type} (a : α) (g : α → Except String β) :
    (Except.ok a : Except String α) >>= g = g a := rfl

theorem pureE {α : Type} (a : α) :
    (pure a : Except String α) = .ok a := rfl

theorem isOk_errorE {α : Type} (e : String) :
    (Except.error e : Except String α).isOk = false := rfl

theorem isOk_okE {α : Type} (a : α) :
    (Except.ok a : Except String α).isOk = true := rfl

theorem mapExcept_id_of_ok {α : Type} (f : α → Except String α) (l : List α)
    (h : ∀ x ∈ l, f x = .ok x) : mapExcept f l = .ok l := by
  induction l with
  | nil => rfl
  | cons a rest ih =>
      simp only [mapExcept]
      rw [h a (by simp), ih (fun x hx => h x (by simp [hx]))]
      rfl

theorem mapExcept_mem {α β : Type} (f : α → Except String β) (l : List α)
    (l2 : List β) (h : mapExcept f l = .ok l2) :
    ∀ y ∈ l2, ∃ x ∈ l, f x = .ok y := by
  induction l generalizing l2 with
  | nil =>
      simp only [mapExcept] at h
      cases h
      simp
  | cons a rest ih =>
      simp only [mapExcept] at h
      cases hfa : f a with
      | error e => rw [hfa, bindE_error] at h; cases h
      | ok b =>
          rw [hfa, bindE_ok] at h
          cases hrest : mapExcept f rest with
          | error e => rw [hrest, bindE_error] at h; cases h
          | ok bs =>
              rw [hrest, bindE_ok, pureE] at h
              cases h
              intro y hy
              rcases List.mem_cons.mp hy with hy | hy
              · exact ⟨a, by simp, hy ▸ hfa⟩
              · obtain ⟨x, hx, hfx⟩ := ih bs hrest y hy
                exact ⟨x, by simp [hx], hfx⟩

theorem mapExcept_isOk {α β : Type} (f : α → Except String β) (l : List α) :
    (mapExcept f l).isOk = l.all (fun x => (f x).isOk) := by
  induction l with
  | nil => rfl
  | cons a rest ih =>
      simp only [mapExcept, List.all_cons]
      cases hfa : f a with
      | error e => simp [bindE_error, isOk_errorE]
      | ok b =>
          rw [bindE_ok, isOk_okE, Bool.true_and]
          cases hrest : mapExcept f rest with
          | error e =>
              rw [hrest, isOk_errorE] at ih
              rw [bindE_error, isOk_errorE]
              exact ih
          | ok bs =>
              rw [hrest, isOk_okE] at ih
              rw [bindE_ok, pureE, isOk_okE]
              exact ih

theorem mapExcept_section {α β : Type} (f : α → Except String β) (g : β → α)
    (l : List α) (h : ∀ x ∈ l, ∃ y, f x = .ok y ∧ g y = x) :
    ∃ l2, mapExcept f l = .ok l2 ∧ l2.map g = l := by
  induction l with
  | nil => exact ⟨[], rfl, rfl⟩
  | cons a rest ih =>
      obtain ⟨y, hy, hgy⟩ := h a (by simp)
      obtain ⟨l2, hl2, hgl2⟩ := ih (fun x hx => h x (by simp [hx]))
      refine ⟨y :: l2, ?_, by simp [hgy, hgl2]⟩
      simp only [mapExcept]
      rw [hy, bindE_ok, hl2, bindE_ok, pureE]

/-!  Lemmas about the individual transform steps.  -/

theorem lookup_dockStep (t : Table) (c : String) :
    (dockStep t).lookup c =
      if hasCol t "dock" then
        (if c = "dock" then none
         else if c = "dock_level" then
           some ((colD t "dock").map (extractDock "level"))
         else if c = "dock_bay" then
           some ((colD t "dock").map (extractDock "bay"))
         else t.lookup c)
      else t.lookup c := by
  unfold dockStep
  by_cases hp : hasCol t "dock"
  · rw [if_pos hp, if_pos hp, lookup_dropCol, lookup_setCol, lookup_setCol]
  · rw [if_neg hp, if_neg hp]

theorem lookup_servicesStep (t : Table) (c : String) :
    (servicesStep t).lookup c =
      if c = "services" then (t.lookup "services").map (List.map joinServices)
      else t.lookup c := by
  unfold servicesStep
  exact lookup_mapCol t "services" c joinServices

theorem toDatetimeUtc_ok_shape (x y : Value) (h : toDatetimeUtc x = .ok y) :
    y = .null ∨ ∃ n, y = .timestamp n := by
  cases x with
  | null => cases h; exact Or.inl rfl
  | timestamp t => cases h; exact Or.inr ⟨_, rfl⟩
  | date d => cases h; exact Or.inr ⟨_, rfl⟩
  | num q => cases h; exact Or.inr ⟨_, rfl⟩
  | str s =>
      cases hp : parseDatetime? s with
      | none => simp [toDatetimeUtc, hp] at h
      | some t =>
          simp [toDatetimeUtc, hp] at h
          exact Or.inr ⟨t, h.symm⟩
  | bool b => simp [toDatetimeUtc] at h
  | list l => simp [toDatetimeUtc] at h
  | dict d => simp [toDatetimeUtc] at h

theorem visitedStep_ok_elim (t t2 : Table) (h : visitedStep t = .ok t2) :
    (hasCol t "visited_at" = false ∧ t2 = t) ∨
    (hasCol t "visited_at" = true ∧
      ∃ c2, mapExcept toDatetimeUtc (colD t "visited_at") = .ok c2 ∧
        t2 = setCol t "visited_at" c2) := by
  unfold visitedStep at h
  by_cases hp : hasCol t "visited_at"
  · rw [if_pos hp] at h
    cases hm : mapExcept toDatetimeUtc (colD t "visited_at") with
    | error e => rw [hm, bindE_error] at h; cases h
    | ok c2 =>
        rw [hm, bindE_ok, pureE] at h
        cases h
        exact Or.inr ⟨hp, c2, rfl, rfl⟩
  · rw [if_neg hp, pureE] at h
    cases h
    exact Or.inl ⟨by simpa using hp, rfl⟩

theorem arrivalStep_ok_elim (t t2 : Table) (h : arrivalStep t = .ok t2) :
    (hasCol t "arrival_date" = false ∧ t2 = t) ∨
    (hasCol t "arrival_date" = true ∧
      ∃ c2, mapExcept toDatetimeUtc (colD t "arrival_date") = .ok c2 ∧
        t2 = setCol t "arrival_date" (c2.map dtDate)) := by
  unfold arrivalStep at h
  by_cases hp : hasCol t "arrival_date"
  · rw [if_pos hp] at h
    cases hm : mapExcept toDatetimeUtc (colD t "arrival_date") with
    | error e => rw [hm, bindE_error] at h; cases h
    | ok c2 =>
        rw [hm, bindE_ok, pureE] at h
        cases h
        exact Or.inr ⟨hp, c2, rfl, rfl⟩
  · rw [if_neg hp, pureE] at h
    cases h
    exact Or.inl ⟨by simpa using hp, rfl⟩

theorem visitedStep_lookup_ne (t t2 : Table) (c : String)
    (h : visitedStep t = .ok t2) (hc : c ≠ "visited_at") :
    t2.lookup c = t.lookup c := by
  rcases visitedStep_ok_elim t t2 h with ⟨_, rfl⟩ | ⟨_, c2, _, rfl⟩
  · rfl
  · rw [lookup_setCol, if_neg hc]

theorem arrivalStep_lookup_ne (t t2 : Table) (c : String)
    (h : arrivalStep t = .ok t2) (hc : c ≠ "arrival_date") :
    t2.lookup c = t.lookup c := by
  rcases arrivalStep_ok_elim t t2 h with ⟨_, rfl⟩ | ⟨_, c2, _, rfl⟩
  · rfl
  · rw [lookup_setCol, if_neg hc]

theorem visitedStep_cells (t t2 : Table) (h : visitedStep t = .ok t2) :
    ∀ v ∈ colD t2 "visited_at", v = .null ∨ ∃ n, v = .timestamp n := by
  rcases visitedStep_ok_elim t t2 h with ⟨hp, heq⟩ | ⟨hp, c2, hm, rfl⟩
  · intro v hv
    rw [heq] at hv
    unfold hasCol at hp
    cases hl : List.lookup "visited_at" t with
    | none => simp [colD, hl] at hv
    | some col => rw [hl] at hp; simp at hp
  · intro v hv
    have : colD (setCol t "visited_at" c2) "visited_at" = c2 := by
      unfold colD
      rw [lookup_setCol, if_pos rfl]
      rfl
    rw [this] at hv
    obtain ⟨x, _, hx⟩ := mapExcept_mem toDatetimeUtc _ c2 hm v hv
    exact toDatetimeUtc_ok_shape x v hx

theorem arrivalStep_cells (t t2 : Table) (h : arrivalStep t = .ok t2) :
    ∀ v ∈ colD t2 "arrival_date", v = .null ∨ ∃ n, v = .date n := by
  rcases arrivalStep_ok_elim t t2 h with ⟨hp, heq⟩ | ⟨hp, c2, hm, rfl⟩
  · intro v hv
    rw [heq] at hv
    unfold hasCol at hp
    cases hl : List.lookup "arrival_date" t with
    | none => simp [colD, hl] at hv
    | some col => rw [hl] at hp; simp at hp
  · intro v hv
    have : colD (setCol t "arrival_date" (c2.map dtDate)) "arrival_date" =
        c2.map dtDate := by
      unfold colD
      rw [lookup_setCol, if_pos rfl]
      rfl
    rw [this] at hv
    obtain ⟨y, hy, rfl⟩ := List.mem_map.mp hv
    obtain ⟨x, _, hx⟩ := mapExcept_mem toDatetimeUtc _ c2 hm y hy
    rcases toDatetimeUtc_ok_shape x y hx with rfl | ⟨n, rfl⟩
    · exact Or.inl rfl
    · exact Or.inr ⟨_, rfl⟩

theorem numericSteps_expand (t : Table) :
    numericSteps t =
      mapCol (mapCol (mapCol (mapCol (mapCol (mapCol t
        "price_per_unit" toNumericCoerce)
        "total_cost" toNumericCoerce)
        "fuel_units" toNumericCoerce)
        "coords_x" toNumericCoerce)
        "coords_y" toNumericCoerce)
        "station_id" toNumericCoerce := rfl

theorem lookup_numericSteps (t : Table) (c : String) :
    (numericSteps t).lookup c =
      if c ∈ numeric_columns then (t.lookup c).map (List.map toNumericCoerce)
      else t.lookup c := by
  rw [numericSteps_expand]
  by_cases h1 : c = "price_per_unit"
  · subst h1
    simp [lookup_mapCol, numeric_columns, decimal_columns, float_columns,
      int_columns]
  · by_cases h2 : c = "total_cost"
    · subst h2
      simp [lookup_mapCol, numeric_columns, decimal_columns, float_columns,
        int_columns]
    · by_cases h3 : c = "fuel_units"
      · subst h3
        simp [lookup_mapCol, numeric_columns, decimal_columns, float_columns,
          int_columns]
      · by_cases h4 : c = "coords_x"
        · subst h4
          simp [lookup_mapCol, numeric_columns, decimal_columns, float_columns,
            int_columns]
        · by_cases h5 : c = "coords_y"
          · subst h5
            simp [lookup_mapCol, numeric_columns, decimal_columns,
              float_columns, int_columns]
          · by_cases h6 : c = "station_id"
            · subst h6
              simp [lookup_mapCol, numeric_columns, decimal_columns,
                float_columns, int_columns]
            · have hmem : c ∉ numeric_columns := by
                simp [numeric_columns, decimal_columns, float_columns,
                  int_columns, h1, h2, h3, h4, h5, h6]
              rw [if_neg hmem]
              simp [lookup_mapCol, h1, h2, h3, h4, h5, h6]

theorem lookup_boolStep (t : Table) (c : String) :
    (boolStep t).lookup c =
      if c = "is_emergency" then
        (t.lookup "is_emergency").map (List.map (fun v => .bool v.truthy))
      else t.lookup c := by
  unfold boolStep
  exact lookup_mapCol t "is_emergency" c _

theorem hasCol_setCol (t : Table) (n c : String) (v : List Value) :
    hasCol (setCol t n v) c = if c = n then true else hasCol t c := by
  unfold hasCol
  rw [lookup_setCol]
  by_cases h : c = n <;> simp [h]

theorem lookup_none_of_hasCol_false (t : Table) (c : String)
    (h : hasCol t c = false) : t.lookup c = none := by
  unfold hasCol at h
  cases hl : t.lookup c with
  | none => rfl
  | some col => rw [hl] at h; simp at h

theorem fillColNa_absent (t : Table) (c : String) (fill : Value)
    (h : hasCol t c = false) : fillColNa t c fill = .ok t := by
  unfold fillColNa
  rw [if_neg (by simp [h])]

theorem fillColNa_null_present (t : Table) (c : String)
    (h : hasCol t c = true) :
    fillColNa t c .null =
      .error "ValueError: Must specify a fill value or method" := by
  unfold fillColNa
  rw [if_pos h, if_pos rfl]

theorem fillColNa_ok (t : Table) (c : String) (fill : Value)
    (h : fill ≠ .null) :
    fillColNa t c fill = .ok (mapCol t c (fillWith fill)) := by
  unfold fillColNa mapCol
  by_cases hp : hasCol t c
  · rw [if_pos hp, if_neg h, if_pos hp]
  · rw [if_neg hp, if_neg hp]

theorem fillnaStep_ok_elim (t u : Table) (h : fillnaStep t = .ok u) :
    hasCol t "dock_bay" = false ∧ hasCol t "dock_level" = false ∧
    u = postFill t := by
  unfold fillnaStep at h
  by_cases hb : hasCol t "dock_bay"
  · rw [fillColNa_null_present t _ hb, bindE_error] at h
    exact Except.noConfusion h
  · have hb2 : hasCol t "dock_bay" = false := by simpa using hb
    rw [fillColNa_absent t _ _ hb2, bindE_ok] at h
    by_cases hl : hasCol t "dock_level"
    · rw [fillColNa_null_present t _ hl, bindE_error] at h
      exact Except.noConfusion h
    · have hl2 : hasCol t "dock_level" = false := by simpa using hl
      rw [fillColNa_absent t _ _ hl2, bindE_ok,
        fillColNa_ok t "services" _ (by decide), bindE_ok,
        fillColNa_ok _ "is_emergency" _ (by decide)] at h
      cases h
      exact ⟨hb2, hl2, rfl⟩

theorem fillnaStep_ok_of (t : Table)
    (hb : hasCol t "dock_bay" = false) (hl : hasCol t "dock_level" = false) :
    fillnaStep t = .ok (postFill t) := by
  unfold fillnaStep
  rw [fillColNa_absent t _ _ hb, bindE_ok, fillColNa_absent t _ _ hl, bindE_ok,
    fillColNa_ok t "services" _ (by decide), bindE_ok,
    fillColNa_ok _ "is_emergency" _ (by decide)]
  rfl

theorem fillnaStep_isOk (t : Table) :
    (fillnaStep t).isOk =
      (!hasCol t "dock_bay" && !hasCol t "dock_level") := by
  by_cases hb : hasCol t "dock_bay"
  · unfold fillnaStep
    rw [fillColNa_null_present t _ hb, bindE_error, isOk_errorE, hb]
    rfl
  · have hb2 : hasCol t "dock_bay" = false := by simpa using hb
    by_cases hl : hasCol t "dock_level"
    · unfold fillnaStep
      rw [fillColNa_absent t _ _ hb2, bindE_ok, fillColNa_null_present t _ hl,
        bindE_error, isOk_errorE, hb2, hl]
      rfl
    · have hl2 : hasCol t "dock_level" = false := by simpa using hl
      rw [fillnaStep_ok_of t hb2 hl2, isOk_okE, hb2, hl2]
      rfl

theorem lookup_postFill (t : Table) (c : String)
    (hs : c ≠ "services") (he : c ≠ "is_emergency") :
    (postFill t).lookup c = t.lookup c := by
  unfold postFill
  rw [lookup_mapCol, if_neg he, lookup_mapCol, if_neg hs]

theorem hasCol_postFill (t : Table) (c : String) :
    hasCol (postFill t) c = hasCol t c := by
  unfold postFill
  rw [hasCol_mapCol, hasCol_mapCol]

theorem hasCol_servicesStep (t : Table) (c : String) :
    hasCol (servicesStep t) c = hasCol t c := by
  unfold servicesStep
  exact hasCol_mapCol t "services" c joinServices

theorem hasCol_numericSteps (t : Table) (c : String) :
    hasCol (numericSteps t) c = hasCol t c := by
  rw [numericSteps_expand, hasCol_mapCol, hasCol_mapCol, hasCol_mapCol,
    hasCol_mapCol, hasCol_mapCol, hasCol_mapCol]

theorem visitedStep_hasCol (t t2 : Table) (c : String)
    (h : visitedStep t = .ok t2) : hasCol t2 c = hasCol t c := by
  rcases visitedStep_ok_elim t t2 h with ⟨_, heq⟩ | ⟨hp, c2, _, heq⟩
  · rw [heq]
  · rw [heq, hasCol_setCol]
    by_cases hc : c = "visited_at"
    · rw [if_pos hc, hc, hp]
    · rw [if_neg hc]

theorem arrivalStep_hasCol (t t2 : Table) (c : String)
    (h : arrivalStep t = .ok t2) : hasCol t2 c = hasCol t c := by
  rcases arrivalStep_ok_elim t t2 h with ⟨_, heq⟩ | ⟨hp, c2, _, heq⟩
  · rw [heq]
  · rw [heq, hasCol_setCol]
    by_cases hc : c = "arrival_date"
    · rw [if_pos hc, hc, hp]
    · rw [if_neg hc]

theorem hasCol_dockStep_created (t : Table) (c : String)
    (hc : c = "dock_bay" ∨ c = "dock_level") :
    hasCol (dockStep t) c = (hasCol t "dock" || hasCol t c) := by
  by_cases hd : hasCol t "dock"
  · rw [hd, Bool.true_or]
    unfold hasCol
    rw [lookup_dockStep, if_pos hd]
    rcases hc with rfl | rfl
    · rw [if_neg (by decide), if_neg (by decide), if_pos rfl]
      rfl
    · rw [if_neg (by decide), if_pos rfl]
      rfl
  · have hd2 : hasCol t "dock" = false := by simpa using hd
    rw [hd2, Bool.false_or]
    unfold hasCol
    rw [lookup_dockStep, if_neg hd]

theorem transform_unfold (df : Table) :
    transform_for_postgres df =
      (visitedStep (servicesStep (dockStep df))) >>= (fun t2 =>
        (arrivalStep t2) >>= (fun t3 =>
          fillnaStep (boolStep (numericSteps t3)))) := rfl

theorem transform_ok_elim (df u : Table)
    (h : transform_for_postgres df = .ok u) :
    ∃ t2 t3, visitedStep (servicesStep (dockStep df)) = .ok t2 ∧
      arrivalStep t2 = .ok t3 ∧
      hasCol (boolStep (numericSteps t3)) "dock_bay" = false ∧
      hasCol (boolStep (numericSteps t3)) "dock_level" = false ∧
      u = postFill (boolStep (numericSteps t3)) := by
  rw [transform_unfold] at h
  cases h1 : visitedStep (servicesStep (dockStep df)) with
  | error e =>
      rw [h1] at h
      simp only [bindE_error] at h
      exact Except.noConfusion h
  | ok t2 =>
      rw [h1] at h
      simp only [bindE_ok] at h
      cases h2 : arrivalStep t2 with
      | error e =>
          rw [h2] at h
          simp only [bindE_error] at h
          exact Except.noConfusion h
      | ok t3 =>
          rw [h2] at h
          simp only [bindE_ok] at h
          obtain ⟨hb, hl, hu⟩ := fillnaStep_ok_elim _ u h
          exact ⟨t2, t3, rfl, h2, hb, hl, hu⟩

theorem lookup_preSteps (df : Table) (c : String)
    (hdock : c ≠ "dock") (hbay : c ≠ "dock_bay") (hlevel : c ≠ "dock_level")
    (hserv : c ≠ "services") :
    (servicesStep (dockStep df)).lookup c = df.lookup c := by
  rw [lookup_servicesStep, if_neg hserv, lookup_dockStep]
  by_cases hd : hasCol df "dock"
  · rw [if_pos hd, if_neg hdock, if_neg hlevel, if_neg hbay]
  · rw [if_neg hd]

theorem stage_hasCol (df t2 t3 : Table) (c : String)
    (h1 : visitedStep (servicesStep (dockStep df)) = .ok t2)
    (h2 : arrivalStep t2 = .ok t3)
    (hc : c = "dock_bay" ∨ c = "dock_level") :
    hasCol (boolStep (numericSteps t3)) c =
      (hasCol df "dock" || hasCol df c) := by
  unfold boolStep
  rw [hasCol_mapCol, hasCol_numericSteps, arrivalStep_hasCol t2 t3 c h2,
    visitedStep_hasCol _ t2 c h1, hasCol_servicesStep,
    hasCol_dockStep_created df c hc]

theorem transform_ok_no_dock_cols (df u : Table)
    (h : transform_for_postgres df = .ok u) :
    hasCol df "dock" = false ∧ hasCol df "dock_bay" = false ∧
    hasCol df "dock_level" = false ∧
    u.lookup "dock" = none ∧ u.lookup "dock_bay" = none ∧
    u.lookup "dock_level" = none := by
  obtain ⟨t2, t3, h1, h2, hb, hl, hu⟩ := transform_ok_elim df u h
  rw [stage_hasCol df t2 t3 _ h1 h2 (Or.inl rfl)] at hb
  rw [stage_hasCol df t2 t3 _ h1 h2 (Or.inr rfl)] at hl
  have hdock : hasCol df "dock" = false := by
    cases hd : hasCol df "dock"
    · rfl
    · rw [hd] at hb; simp at hb
  have hbay : hasCol df "dock_bay" = false := by
    cases hd : hasCol df "dock_bay"
    · rfl
    · rw [hd] at hb; simp at hb
  have hlev : hasCol df "dock_level" = false := by
    cases hd : hasCol df "dock_level"
    · rfl
    · rw [hd] at hl; simp at hl
  refine ⟨hdock, hbay, hlev, ?_, ?_, ?_⟩
  · rw [hu, lookup_postFill _ _ (by decide) (by decide), lookup_boolStep,
      if_neg (by decide), lookup_numericSteps, if_neg (by decide),
      arrivalStep_lookup_ne t2 t3 _ h2 (by decide),
      visitedStep_lookup_ne _ t2 _ h1 (by decide),
      lookup_servicesStep, if_neg (by decide), lookup_dockStep,
      if_neg (by simp [hdock])]
    exact lookup_none_of_hasCol_false df _ hdock
  · rw [hu]
    apply lookup_none_of_hasCol_false
    rw [hasCol_postFill, stage_hasCol df t2 t3 _ h1 h2 (Or.inl rfl), hdock,
      hbay]
    rfl
  · rw [hu]
    apply lookup_none_of_hasCol_false
    rw [hasCol_postFill, stage_hasCol df t2 t3 _ h1 h2 (Or.inr rfl), hdock,
      hlev]
    rfl

theorem transform_lookup_untouched (df u : Table) (c : String)
    (h : transform_for_postgres df = .ok u) (hc : c ∉ touched_columns) :
    u.lookup c = df.lookup c := by
  have hdock : c ≠ "dock" := fun he => hc (by rw [he]; decide)
  have hbay : c ≠ "dock_bay" := fun he => hc (by rw [he]; decide)
  have hlevel : c ≠ "dock_level" := fun he => hc (by rw [he]; decide)
  have hserv : c ≠ "services" := fun he => hc (by rw [he]; decide)
  have hva : c ≠ "visited_at" := fun he => hc (by rw [he]; decide)
  have had : c ≠ "arrival_date" := fun he => hc (by rw [he]; decide)
  have hie : c ≠ "is_emergency" := fun he => hc (by rw [he]; decide)
  have hnum : c ∉ numeric_columns := fun he =>
    hc (by
      unfold touched_columns
      exact List.mem_append.mpr (Or.inl (List.mem_append.mpr (Or.inr he))))
  obtain ⟨t2, t3, h1, h2, _, _, rfl⟩ := transform_ok_elim df u h
  rw [lookup_postFill _ _ hserv hie, lookup_boolStep, if_neg hie,
    lookup_numericSteps, if_neg hnum,
    arrivalStep_lookup_ne t2 t3 c h2 had,
    visitedStep_lookup_ne _ t2 c h1 hva,
    lookup_preSteps df c hdock hbay hlevel hserv]

theorem transform_lookup_emergency (df u : Table)
    (h : transform_for_postgres df = .ok u) :
    u.lookup "is_emergency" =
      (df.lookup "is_emergency").map
        (List.map (fun v => Value.bool v.truthy)) := by
  obtain ⟨t2, t3, h1, h2, _, _, rfl⟩ := transform_ok_elim df u h
  unfold postFill
  rw [lookup_mapCol, if_pos rfl, lookup_mapCol,
    if_neg (by decide : ("is_emergency" : String) ≠ "services"),
    lookup_boolStep, if_pos rfl, lookup_numericSteps,
    if_neg (by decide : ("is_emergency" : String) ∉ numeric_columns),
    arrivalStep_lookup_ne t2 t3 _ h2 (by decide),
    visitedStep_lookup_ne _ t2 _ h1 (by decide),
    lookup_preSteps df _ (by decide) (by decide) (by decide) (by decide)]
  cases df.lookup "is_emergency" with
  | none => rfl
  | some col =>
      simp only [Option.map]
      rw [List.map_map]
      refine congrArg some (List.map_congr_left ?_)
      intro a _
      simp [Function.comp, fillWith]

theorem transform_lookup_services (df u : Table)
    (h : transform_for_postgres df = .ok u) :
    u.lookup "services" =
      (df.lookup "services").map (List.map joinServices) := by
  obtain ⟨t2, t3, h1, h2, _, _, rfl⟩ := transform_ok_elim df u h
  unfold postFill
  rw [lookup_mapCol,
    if_neg (by decide : ("services" : String) ≠ "is_emergency"),
    lookup_mapCol, if_pos rfl,
    lookup_boolStep, if_neg (by decide : ("services" : String) ≠ "is_emergency"),
    lookup_numericSteps,
    if_neg (by decide : ("services" : String) ∉ numeric_columns),
    arrivalStep_lookup_ne t2 t3 _ h2 (by decide),
    visitedStep_lookup_ne _ t2 _ h1 (by decide),
    lookup_servicesStep, if_pos rfl, lookup_dockStep]
  have hmid :
      (if hasCol df "dock" then
        (if ("services" : String) = "dock" then none
         else if ("services" : String) = "dock_level" then
           some ((colD df "dock").map (extractDock "level"))
         else if ("services" : String) = "dock_bay" then
           some ((colD df "dock").map (extractDock "bay"))
         else df.lookup "services")
      else df.lookup "services") = df.lookup "services" := by
    by_cases hd : hasCol df "dock"
    · rw [if_pos hd, if_neg (by decide), if_neg (by decide), if_neg (by decide)]
    · rw [if_neg hd]
  rw [hmid]
  cases df.lookup "services" with
  | none => rfl
  | some col =>
      simp only [Option.map]
      rw [List.map_map]
      refine congrArg some (List.map_congr_left ?_)
      intro a _
      have hstr : ∃ s, joinServices a = .str s := by
        cases a <;> simp [joinServices]
        split <;> simp
      obtain ⟨s, hs⟩ := hstr
      simp [Function.comp, fillWith, hs]

theorem transform_lookup_numeric (df u : Table) (c : String)
    (h : transform_for_postgres df = .ok u) (hc : c ∈ numeric_columns) :
    u.lookup c = (df.lookup c).map (List.map toNumericCoerce) := by
  have hserv : c ≠ "services" := fun he => by
    rw [he] at hc; exact absurd hc (by decide)
  have hie : c ≠ "is_emergency" := fun he => by
    rw [he] at hc; exact absurd hc (by decide)
  have hva : c ≠ "visited_at" := fun he => by
    rw [he] at hc; exact absurd hc (by decide)
  have had : c ≠ "arrival_date" := fun he => by
    rw [he] at hc; exact absurd hc (by decide)
  have hdock : c ≠ "dock" := fun he => by
    rw [he] at hc; exact absurd hc (by decide)
  have hbay : c ≠ "dock_bay" := fun he => by
    rw [he] at hc; exact absurd hc (by decide)
  have hlevel : c ≠ "dock_level" := fun he => by
    rw [he] at hc; exact absurd hc (by decide)
  obtain ⟨t2, t3, h1, h2, _, _, rfl⟩ := transform_ok_elim df u h
  rw [lookup_postFill _ _ hserv hie, lookup_boolStep, if_neg hie,
    lookup_numericSteps, if_pos hc,
    arrivalStep_lookup_ne t2 t3 c h2 had,
    visitedStep_lookup_ne _ t2 c h1 hva,
    lookup_preSteps df c hdock hbay hlevel hserv]

/-!  Success characterization and output cell shapes.  -/

theorem toDatetimeUtc_isOk (v : Value) :
    (toDatetimeUtc v).isOk = datetimeConvertible v := by
  cases v with
  | str s => cases hp : parseDatetime? s <;>
      simp [toDatetimeUtc, datetimeConvertible, hp, isOk_okE, isOk_errorE]
  | null => rfl
  | bool b => rfl
  | num q => rfl
  | list l => rfl
  | dict d => rfl
  | timestamp t => rfl
  | date d => rfl

theorem visitedStep_isOk (t : Table) :
    (visitedStep t).isOk = (colD t "visited_at").all datetimeConvertible := by
  have hfun : (fun x => (toDatetimeUtc x).isOk) = datetimeConvertible :=
    funext toDatetimeUtc_isOk
  unfold visitedStep
  by_cases hp : hasCol t "visited_at"
  · rw [if_pos hp]
    cases hm : mapExcept toDatetimeUtc (colD t "visited_at") with
    | error e =>
        rw [bindE_error, isOk_errorE]
        have hh := mapExcept_isOk toDatetimeUtc (colD t "visited_at")
        rw [hm, isOk_errorE, hfun] at hh
        exact hh
    | ok c2 =>
        rw [bindE_ok, pureE, isOk_okE]
        have hh := mapExcept_isOk toDatetimeUtc (colD t "visited_at")
        rw [hm, isOk_okE, hfun] at hh
        exact hh
  · rw [if_neg hp, pureE, isOk_okE]
    unfold hasCol at hp
    cases hl : t.lookup "visited_at" with
    | none => simp [colD, hl]
    | some col => rw [hl] at hp; simp at hp

theorem arrivalStep_isOk (t : Table) :
    (arrivalStep t).isOk = (colD t "arrival_date").all datetimeConvertible := by
  have hfun : (fun x => (toDatetimeUtc x).isOk) = datetimeConvertible :=
    funext toDatetimeUtc_isOk
  unfold arrivalStep
  by_cases hp : hasCol t "arrival_date"
  · rw [if_pos hp]
    cases hm : mapExcept toDatetimeUtc (colD t "arrival_date") with
    | error e =>
        rw [bindE_error, isOk_errorE]
        have hh := mapExcept_isOk toDatetimeUtc (colD t "arrival_date")
        rw [hm, isOk_errorE, hfun] at hh
        exact hh
    | ok c2 =>
        rw [bindE_ok, pureE, isOk_okE]
        have hh := mapExcept_isOk toDatetimeUtc (colD t "arrival_date")
        rw [hm, isOk_okE, hfun] at hh
        exact hh
  · rw [if_neg hp, pureE, isOk_okE]
    unfold hasCol at hp
    cases hl : t.lookup "arrival_date" with
    | none => simp [colD, hl]
    | some col => rw [hl] at hp; simp at hp

theorem transform_isOk (df : Table) :
    (transform_for_postgres df).isOk =
      ((colD df "visited_at").all datetimeConvertible &&
        ((colD df "arrival_date").all datetimeConvertible &&
          (!(hasCol df "dock" || hasCol df "dock_bay") &&
            !(hasCol df "dock" || hasCol df "dock_level")))) := by
  rw [transform_unfold]
  have hva : colD (servicesStep (dockStep df)) "visited_at" =
      colD df "visited_at" := by
    unfold colD
    rw [lookup_preSteps df _ (by decide) (by decide) (by decide) (by decide)]
  cases h1 : visitedStep (servicesStep (dockStep df)) with
  | error e =>
      rw [bindE_error, isOk_errorE]
      have hv := visitedStep_isOk (servicesStep (dockStep df))
      rw [h1, isOk_errorE, hva] at hv
      rw [← hv, Bool.false_and]
  | ok t2 =>
      rw [bindE_ok]
      have hv := visitedStep_isOk (servicesStep (dockStep df))
      rw [h1, isOk_okE, hva] at hv
      have hadc : colD t2 "arrival_date" = colD df "arrival_date" := by
        unfold colD
        rw [visitedStep_lookup_ne _ t2 _ h1 (by decide),
          lookup_preSteps df _ (by decide) (by decide) (by decide) (by decide)]
      cases h2 : arrivalStep t2 with
      | error e =>
          rw [bindE_error, isOk_errorE]
          have ha := arrivalStep_isOk t2
          rw [h2, isOk_errorE, hadc] at ha
          rw [← hv, ← ha]
          rfl
      | ok t3 =>
          rw [bindE_ok, fillnaStep_isOk,
            stage_hasCol df t2 t3 _ h1 h2 (Or.inl rfl),
            stage_hasCol df t2 t3 _ h1 h2 (Or.inr rfl)]
          have ha := arrivalStep_isOk t2
          rw [h2, isOk_okE, hadc] at ha
          rw [← hv, ← ha]
          rfl

theorem toNumericCoerce_shape (v : Value) :
    toNumericCoerce v = .null ∨ ∃ q, toNumericCoerce v = .num q := by
  cases v with
  | str s => cases hp : parseNum? s <;> simp [toNumericCoerce, hp]
  | null => exact Or.inl rfl
  | bool b => exact Or.inr ⟨_, rfl⟩
  | num q => exact Or.inr ⟨_, rfl⟩
  | list l => exact Or.inl rfl
  | dict d => exact Or.inl rfl
  | timestamp t => exact Or.inr ⟨_, rfl⟩
  | date d => exact Or.inl rfl

theorem toNumericCoerce_idem (v : Value) :
    toNumericCoerce (toNumericCoerce v) = toNumericCoerce v := by
  rcases toNumericCoerce_shape v with h | ⟨q, h⟩ <;> rw [h] <;> rfl

theorem transform_visited_cells (df u : Table)
    (h : transform_for_postgres df = .ok u) :
    ∀ v ∈ colD u "visited_at", v = .null ∨ ∃ n, v = .timestamp n := by
  obtain ⟨t2, t3, h1, h2, _, _, hu⟩ := transform_ok_elim df u h
  have hcc : colD u "visited_at" = colD t2 "visited_at" := by
    rw [hu]
    unfold colD
    rw [lookup_postFill _ _ (by decide) (by decide), lookup_boolStep,
      if_neg (by decide), lookup_numericSteps, if_neg (by decide),
      arrivalStep_lookup_ne t2 t3 _ h2 (by decide)]
  rw [hcc]
  exact visitedStep_cells _ t2 h1

theorem transform_arrival_cells (df u : Table)
    (h : transform_for_postgres df = .ok u) :
    ∀ v ∈ colD u "arrival_date", v = .null ∨ ∃ n, v = .date n := by
  obtain ⟨t2, t3, h1, h2, _, _, hu⟩ := transform_ok_elim df u h
  have hcc : colD u "arrival_date" = colD t3 "arrival_date" := by
    rw [hu]
    unfold colD
    rw [lookup_postFill _ _ (by decide) (by decide), lookup_boolStep,
      if_neg (by decide), lookup_numericSteps, if_neg (by decide)]
  rw [hcc]
  exact arrivalStep_cells t2 t3 h2

/-!  The fixed-point lemma for already-normalized tables.  -/

theorem transform_fixed_point (u : Table)
    (hdockL : u.lookup "dock" = none)
    (hbayL : u.lookup "dock_bay" = none)
    (hlevL : u.lookup "dock_level" = none)
    (hserv : ∀ v ∈ colD u "services", joinServices v = v)
    (hservnn : ∀ v ∈ colD u "services", v ≠ .null)
    (hva : ∀ v ∈ colD u "visited_at", v = .null ∨ ∃ n, v = .timestamp n)
    (had : ∀ v ∈ colD u "arrival_date", v = .null ∨ ∃ n, v = .date n)
    (hnum : ∀ c ∈ numeric_columns, ∀ v ∈ colD u c, toNumericCoerce v = v)
    (hie : ∀ v ∈ colD u "is_emergency", ∃ b, v = .bool b) :
    transform_for_postgres u = .ok u := by
  have hdockStep : dockStep u = u := by
    unfold dockStep
    rw [if_neg (by simp [hasCol, hdockL])]
  have hservStep : servicesStep u = u := mapCol_self _ _ _ hserv
  have hvis : visitedStep u = .ok u := by
    unfold visitedStep
    by_cases hp : hasCol u "visited_at"
    · rw [if_pos hp]
      have hm : mapExcept toDatetimeUtc (colD u "visited_at") =
          .ok (colD u "visited_at") :=
        mapExcept_id_of_ok _ _ (fun x hx => by
          rcases hva x hx with rfl | ⟨n, rfl⟩ <;> rfl)
      rw [hm, bindE_ok, pureE]
      unfold hasCol at hp
      obtain ⟨col, hcol⟩ := Option.isSome_iff_exists.mp hp
      have hcd : colD u "visited_at" = col := by simp [colD, hcol]
      rw [hcd, setCol_self u _ col hcol]
    · rw [if_neg hp]; rfl
  have harr : arrivalStep u = .ok u := by
    unfold arrivalStep
    by_cases hp : hasCol u "arrival_date"
    · rw [if_pos hp]
      obtain ⟨l2, hl2, hmap⟩ := mapExcept_section toDatetimeUtc dtDate
        (colD u "arrival_date") (fun x hx => by
          rcases had x hx with rfl | ⟨n, rfl⟩
          · exact ⟨.null, rfl, rfl⟩
          · refine ⟨.timestamp (86400 * n), rfl, ?_⟩
            show Value.date (Int.fdiv (86400 * n) 86400) = Value.date n
            rw [Int.mul_fdiv_cancel_left n (by decide)])
      rw [hl2, bindE_ok, pureE, hmap]
      unfold hasCol at hp
      obtain ⟨col, hcol⟩ := Option.isSome_iff_exists.mp hp
      have hcd : colD u "arrival_date" = col := by simp [colD, hcol]
      rw [hcd, setCol_self u _ col hcol]
    · rw [if_neg hp]; rfl
  have hnumSteps : numericSteps u = u := by
    rw [numericSteps_expand,
      mapCol_self u "price_per_unit" _ (hnum _ (by decide)),
      mapCol_self u "total_cost" _ (hnum _ (by decide)),
      mapCol_self u "fuel_units" _ (hnum _ (by decide)),
      mapCol_self u "coords_x" _ (hnum _ (by decide)),
      mapCol_self u "coords_y" _ (hnum _ (by decide)),
      mapCol_self u "station_id" _ (hnum _ (by decide))]
  have hboolStep : boolStep u = u := by
    unfold boolStep
    apply mapCol_self
    intro x hx
    obtain ⟨b, rfl⟩ := hie x hx
    rfl
  have hbcol : hasCol u "dock_bay" = false := by
    unfold hasCol
    rw [hbayL]
    rfl
  have hlcol : hasCol u "dock_level" = false := by
    unfold hasCol
    rw [hlevL]
    rfl
  have hpf : postFill u = u := by
    unfold postFill
    rw [mapCol_self u "services" _ (fun x hx => by
      unfold fillWith
      rw [if_neg (hservnn x hx)])]
    apply mapCol_self
    intro x hx
    obtain ⟨b, rfl⟩ := hie x hx
    rfl
  rw [transform_unfold, hdockStep, hservStep, hvis, bindE_ok, harr, bindE_ok,
    hnumSteps, hboolStep, fillnaStep_ok_of u hbcol hlcol, hpf]

/-!  Lemmas about validate_data.  -/

theorem isOk_exists {α : Type} (e : Except String α) (h : e.isOk = true) :
    ∃ a, e = .ok a := by
  cases e with
  | error e => rw [isOk_errorE] at h; cases h
  | ok a => exact ⟨a, rfl⟩

theorem mapExcept_ok_of_all {α β : Type} (f : α → Except String β) (l : List α)
    (h : ∀ x ∈ l, (f x).isOk = true) : ∃ l2, mapExcept f l = .ok l2 :=
  isOk_exists _ (by rw [mapExcept_isOk]; exact List.all_eq_true.mpr h)

theorem ltScalar_isOk (v : Value) (r : Rat) (h : rangeComparable v = true) :
    (ltScalar v r).isOk = true := by
  cases v <;> first | rfl | (exfalso; simp [rangeComparable] at h)

theorem gtScalar_isOk (v : Value) (r : Rat) (h : rangeComparable v = true) :
    (gtScalar v r).isOk = true := by
  cases v <;> first | rfl | (exfalso; simp [rangeComparable] at h)

theorem rangeCheck_ok (col : List Value) (lo hi : Rat)
    (h : ∀ v ∈ col, rangeComparable v = true) :
    rangeCheck col lo hi = .ok () := by
  obtain ⟨bs1, h1⟩ := mapExcept_ok_of_all (fun v => ltScalar v lo) col
    (fun x hx => ltScalar_isOk x lo (h x hx))
  obtain ⟨bs2, h2⟩ := mapExcept_ok_of_all (fun v => gtScalar v hi) col
    (fun x hx => gtScalar_isOk x hi (h x hx))
  unfold rangeCheck seriesLtAny seriesGtAny
  rw [h1, h2]
  show ((Except.ok bs1).map (fun bs => bs.any id)) >>= _ = _
  rw [show (Except.ok bs1 : Except String (List Bool)).map (fun bs => bs.any id) =
    .ok (bs1.any id) from rfl]
  rw [show (Except.ok bs2 : Except String (List Bool)).map (fun bs => bs.any id) =
    .ok (bs2.any id) from rfl]
  rw [bindE_ok]
  by_cases ha : bs1.any id
  · rw [if_pos ha]; rfl
  · rw [if_neg ha, bindE_ok]; rfl

theorem validate_missing (df : Table)
    (h : (missingColumns df).isEmpty = false) :
    validate_data df = .ok false := by
  unfold validate_data
  rw [if_pos (by simp [h])]

theorem validate_dup (df : Table)
    (hm : (missingColumns df).isEmpty = true)
    (hh : (colD df "transaction_id").all hashableValue = true)
    (hd : ¬ (colD df "transaction_id").Nodup) :
    validate_data df = .ok false := by
  unfold validate_data
  rw [if_neg (by simp [hm])]
  unfold duplicatedAny
  rw [if_pos hh, bindE_ok, if_pos (decide_eq_true hd)]

theorem validate_pass (df : Table)
    (hm : (missingColumns df).isEmpty = true)
    (hh : (colD df "transaction_id").all hashableValue = true)
    (hd : (colD df "transaction_id").Nodup)
    (hfu : ∀ v ∈ colD df "fuel_units", rangeComparable v = true)
    (hsi : ∀ v ∈ colD df "station_id", rangeComparable v = true) :
    validate_data df = .ok true := by
  unfold validate_data
  rw [if_neg (by simp [hm])]
  unfold duplicatedAny
  rw [if_pos hh, bindE_ok, if_neg (by simp [hd])]
  have hfc : (if hasCol df "fuel_units" then
      rangeCheck (colD df "fuel_units") 0 10000 else .ok ()) = .ok () := by
    by_cases hp : hasCol df "fuel_units"
    · rw [if_pos hp]; exact rangeCheck_ok _ _ _ hfu
    · rw [if_neg hp]
  have hsc : (if hasCol df "station_id" then
      rangeCheck (colD df "station_id") 1000 9999 else .ok ()) = .ok () := by
    by_cases hp : hasCol df "station_id"
    · rw [if_pos hp]; exact rangeCheck_ok _ _ _ hsi
    · rw [if_neg hp]
  rw [hfc, bindE_ok, hsc, bindE_ok]

theorem validate_false_elim (df : Table)
    (h : validate_data df = .ok false) :
    (missingColumns df).isEmpty = false ∨
      ¬ (colD df "transaction_id").Nodup := by
  by_cases hm : (missingColumns df).isEmpty
  · right
    unfold validate_data at h
    rw [if_neg (by simp [hm])] at h
    unfold duplicatedAny at h
    by_cases hh : (colD df "transaction_id").all hashableValue
    · rw [if_pos hh, bindE_ok] at h
      by_cases hd : (colD df "transaction_id").Nodup
      · exfalso
        rw [if_neg (by simp [hd])] at h
        cases hc1 : (if hasCol df "fuel_units" then
            rangeCheck (colD df "fuel_units") 0 10000 else .ok ()) with
        | error e => rw [hc1, bindE_error] at h; exact Except.noConfusion h
        | ok un =>
            rw [hc1, bindE_ok] at h
            cases hc2 : (if hasCol df "station_id" then
                rangeCheck (colD df "station_id") 1000 9999 else .ok ()) with
            | error e => rw [hc2, bindE_error] at h; exact Except.noConfusion h
            | ok un2 =>
                rw [hc2, bindE_ok] at h
                exact Bool.noConfusion (Except.ok.inj h)
      · exact hd
    · rw [if_neg hh, bindE_error] at h
      exact Except.noConfusion h
  · left
    simpa using hm

/-!  Lemma about the tracker row heads.  -/

theorem heads_mapExcept (rows : List (List String))
    (h : ∀ r ∈ rows, r ≠ []) :
    ∃ l2, mapExcept (fun r =>
        match r.head? with
        | some f => Except.ok f
        | none => Except.error "IndexError: tuple index out of range") rows =
      .ok l2 ∧ ∀ f, f ∈ l2 ↔ ∃ r ∈ rows, r.head? = some f := by
  induction rows with
  | nil => exact ⟨[], rfl, by simp⟩
  | cons r rest ih =>
      obtain ⟨l2, hl2, hiff⟩ := ih (fun x hx => h x (by simp [hx]))
      cases hr : r with
      | nil => exact absurd hr (h r (by simp))
      | cons a as =>
          refine ⟨a :: l2, ?_, ?_⟩
          · simp only [mapExcept]
            show (Except.ok a : Except String String) >>= (fun b =>
              mapExcept (fun r =>
                match r.head? with
                | some f => Except.ok f
                | none => Except.error
                    "IndexError: tuple index out of range") rest >>=
                fun bs => pure (b :: bs)) = .ok (a :: l2)
            rw [bindE_ok, hl2, bindE_ok, pureE]
          · intro f
            constructor
            · intro hf
              rcases List.mem_cons.mp hf with rfl | hf
              · exact ⟨r, by simp [hr], by rw [hr]; rfl⟩
              · obtain ⟨r2, hr2, hh⟩ := (hiff f).mp hf
                exact ⟨r2, by simp [hr2], hh⟩
            · rintro ⟨r2, hr2, hh⟩
              rcases List.mem_cons.mp hr2 with rfl | hr2
              · simp only [List.head?, Option.some.injEq] at hh
                exact hh ▸ List.mem_cons_self a l2
              · exact List.mem_cons.mpr (Or.inr ((hiff f).mpr ⟨r2, hr2, hh⟩))

/-!  Claim theorems.  -/

/-- C1 counterexample: a table with every required column present and unique
    transaction ids, whose fuel_units cell is a non-numeric string, makes
    validate_data raise a TypeError out of the soft-range comparison instead
    of returning true, refuting the claim that validate returns true for
    every such table. -/
theorem validate_nonnumeric_raises_cex :
    missingColumns dfHardFail = [] ∧
    (colD dfHardFail "transaction_id").Nodup ∧
    validate_data dfHardFail =
      .error "TypeError: unordered comparison with a number" := by decide

/-- C1 (amended): validate_data returns ok false exactly on a hard failure
    condition - a missing required column, or a duplicated transaction_id -
    and returns ok true whenever all required columns are present, the
    transaction ids are hashable and unique, and every fuel_units and
    station_id cell is numeric, boolean or missing, regardless of soft-range
    violations; on other cell shapes in those columns the soft-range
    comparison raises instead of returning. -/
theorem validate_hard_failure_exactly (df : Table) :
    ((missingColumns df).isEmpty = false → validate_data df = .ok false) ∧
    ((missingColumns df).isEmpty = true →
      (colD df "transaction_id").all hashableValue = true →
      ¬ (colD df "transaction_id").Nodup →
      validate_data df = .ok false) ∧
    ((missingColumns df).isEmpty = true →
      (colD df "transaction_id").all hashableValue = true →
      (colD df "transaction_id").Nodup →
      (∀ v ∈ colD df "fuel_units", rangeComparable v = true) →
      (∀ v ∈ colD df "station_id", rangeComparable v = true) →
      validate_data df = .ok true) ∧
    (validate_data df = .ok false →
      (missingColumns df).isEmpty = false ∨
        ¬ (colD df "transaction_id").Nodup) :=
  ⟨validate_missing df, validate_dup df, validate_pass df,
    validate_false_elim df⟩

/-- C1 witness: a table with all required columns, unique ids, and
    out-of-range fuel_units and station_id values still validates as true;
    a table missing every required column validates as false. -/
theorem validate_hard_failure_witness :
    validate_data dfValidOk = .ok true ∧
    validate_data dfNoDock = .ok false :=
  ⟨(validate_hard_failure_exactly dfValidOk).2.2.1 (by decide) (by decide)
      (by decide) (by decide) (by decide),
    (validate_hard_failure_exactly dfNoDock).1 (by decide)⟩

/-- C2 counterexample: re-running transform on its own output is not the
    identity: the joined services string "fuel,repair" is not a Python list,
    so the second run maps it to the empty string. -/
theorem transform_not_idempotent_cex :
    transform_for_postgres dfServicesList = .ok dfServicesJoined ∧
    transform_for_postgres dfServicesJoined = .ok dfServicesEmptied ∧
    dfServicesEmptied ≠ dfServicesJoined := by decide

/-- C2 (amended): transform is idempotent on its own output exactly when the
    services handling cannot fire again destructively: if every services cell
    of the produced table is the empty string (in particular when no services
    column is present, the column lookup being empty then), re-running
    transform returns the table unchanged. -/
theorem transform_idempotent_amended (df u : Table)
    (h : transform_for_postgres df = .ok u)
    (hs : ∀ v ∈ colD u "services", v = .str "") :
    transform_for_postgres u = .ok u := by
  obtain ⟨_, _, _, hud, hub, hul⟩ := transform_ok_no_dock_cols df u h
  apply transform_fixed_point
  · exact hud
  · exact hub
  · exact hul
  · intro v hv; rw [hs v hv]; rfl
  · intro v hv; rw [hs v hv]; exact fun hc => Value.noConfusion hc
  · exact transform_visited_cells df u h
  · exact transform_arrival_cells df u h
  · intro c hc v hv
    have hl := transform_lookup_numeric df u c h hc
    unfold colD at hv
    rw [hl] at hv
    cases hdf : df.lookup c with
    | none => rw [hdf] at hv; simp at hv
    | some col =>
        rw [hdf] at hv
        have hred : (Option.map (List.map toNumericCoerce) (some col)).getD [] =
            List.map toNumericCoerce col := rfl
        rw [hred] at hv
        obtain ⟨x, _, rfl⟩ := List.mem_map.mp hv
        exact toNumericCoerce_idem x
  · intro v hv
    have hl := transform_lookup_emergency df u h
    unfold colD at hv
    rw [hl] at hv
    cases hdf : df.lookup "is_emergency" with
    | none => rw [hdf] at hv; simp at hv
    | some col =>
        rw [hdf] at hv
        have hred : (Option.map (List.map (fun v => Value.bool v.truthy))
            (some col)).getD [] =
            List.map (fun v => Value.bool v.truthy) col := rfl
        rw [hred] at hv
        obtain ⟨x, _, rfl⟩ := List.mem_map.mp hv
        exact ⟨_, rfl⟩

/-- C2 witness: the output of transform on a table whose services cells are
    all empty lists is a fixed point of transform. -/
theorem transform_idempotent_witness :
    transform_for_postgres dfServicesNormalOut = .ok dfServicesNormalOut :=
  transform_idempotent_amended dfServicesNormal dfServicesNormalOut
    (by decide) (by decide)

/-- C3 counterexample: a table with no is_emergency column passes through
    transform without an is_emergency column being created, so a row whose
    is_emergency value is missing does not receive the boolean false. -/
theorem transform_is_emergency_cex :
    transform_for_postgres dfNoEmergency = .ok dfNoEmergency ∧
    hasCol dfNoEmergency "is_emergency" = false := by decide

/-- C3 (amended): when an is_emergency column is present, transform maps
    every cell through the Python truthiness rule, so every output cell is a
    boolean and a missing cell becomes false; when the column is absent, the
    output has no is_emergency column (the fillna default creates no
    column). -/
theorem transform_is_emergency_amended (df u : Table)
    (h : transform_for_postgres df = .ok u) :
    u.lookup "is_emergency" =
      (df.lookup "is_emergency").map
        (List.map (fun v => Value.bool v.truthy)) ∧
    (∀ v ∈ colD u "is_emergency", ∃ b, v = .bool b) ∧
    Value.truthy .null = false := by
  refine ⟨transform_lookup_emergency df u h, ?_, rfl⟩
  intro v hv
  have hl := transform_lookup_emergency df u h
  unfold colD at hv
  rw [hl] at hv
  cases hdf : df.lookup "is_emergency" with
  | none => rw [hdf] at hv; simp at hv
  | some col =>
      rw [hdf] at hv
      have hred : (Option.map (List.map (fun v => Value.bool v.truthy))
          (some col)).getD [] =
          List.map (fun v => Value.bool v.truthy) col := rfl
      rw [hred] at hv
      obtain ⟨x, _, rfl⟩ := List.mem_map.mp hv
      exact ⟨_, rfl⟩

/-- C3 witness: a present is_emergency column with a missing cell, a true
    boolean and an empty string becomes false, true, false. -/
theorem transform_is_emergency_witness :
    List.lookup "is_emergency" dfEmergencyOut =
      some [Value.bool false, Value.bool true, Value.bool false] := by
  have h := (transform_is_emergency_amended dfEmergency dfEmergencyOut
    (by decide)).1
  rw [h]; decide

/-- C4: transform never raises because of a numeric column: replacing the
    cells of any column subject to numeric coercion never changes whether
    transform succeeds, each such column is mapped cell-wise by the total
    coercion toNumericCoerce, the numeric string 12.5 becomes the number
    25/2, every unparseable string becomes missing, and every coerced cell
    is numeric or missing. -/
theorem transform_numeric_coercion_total (df u : Table) (c : String)
    (hc : c ∈ numeric_columns) :
    (∀ vs : List Value,
      (transform_for_postgres (setCol df c vs)).isOk =
        (transform_for_postgres df).isOk) ∧
    (transform_for_postgres df = .ok u →
      u.lookup c = (df.lookup c).map (List.map toNumericCoerce)) ∧
    toNumericCoerce (.str "12.5") = .num (mkRat 25 2) ∧
    (∀ s, parseNum? s = none → toNumericCoerce (.str s) = .null) ∧
    (∀ v, toNumericCoerce v = .null ∨ ∃ q, toNumericCoerce v = .num q) := by
  have hva : c ≠ "visited_at" := fun he => by
    rw [he] at hc; exact absurd hc (by decide)
  have had : c ≠ "arrival_date" := fun he => by
    rw [he] at hc; exact absurd hc (by decide)
  have hdock : c ≠ "dock" := fun he => by
    rw [he] at hc; exact absurd hc (by decide)
  have hbay : c ≠ "dock_bay" := fun he => by
    rw [he] at hc; exact absurd hc (by decide)
  have hlev : c ≠ "dock_level" := fun he => by
    rw [he] at hc; exact absurd hc (by decide)
  refine ⟨?_, fun h => transform_lookup_numeric df u c h hc, by decide, ?_,
    toNumericCoerce_shape⟩
  · intro vs
    rw [transform_isOk, transform_isOk]
    have h1 : colD (setCol df c vs) "visited_at" = colD df "visited_at" := by
      unfold colD
      rw [lookup_setCol, if_neg (fun he => hva he.symm)]
    have h2 : colD (setCol df c vs) "arrival_date" = colD df "arrival_date" := by
      unfold colD
      rw [lookup_setCol, if_neg (fun he => had he.symm)]
    have h3 : hasCol (setCol df c vs) "dock" = hasCol df "dock" := by
      unfold hasCol
      rw [lookup_setCol, if_neg (fun he => hdock he.symm)]
    have h4 : hasCol (setCol df c vs) "dock_bay" = hasCol df "dock_bay" := by
      unfold hasCol
      rw [lookup_setCol, if_neg (fun he => hbay he.symm)]
    have h5 : hasCol (setCol df c vs) "dock_level" =
        hasCol df "dock_level" := by
      unfold hasCol
      rw [lookup_setCol, if_neg (fun he => hlev he.symm)]
    rw [h1, h2, h3, h4, h5]
  · intro s hs
    simp [toNumericCoerce, hs]

/-- C4 witness: replacing the price_per_unit cells by a junk struct leaves
    the run successful, and the cells 12.5, abc and missing become 25/2,
    missing, missing. -/
theorem transform_numeric_coercion_witness :
    (transform_for_postgres (setCol dfPrice "price_per_unit"
      [Value.dict []])).isOk = true ∧
    List.lookup "price_per_unit" dfPriceOut =
      some [Value.num (mkRat 25 2), Value.null, Value.null] := by
  have h := transform_numeric_coercion_total dfPrice dfPriceOut
    "price_per_unit" (by decide)
  constructor
  · rw [h.1 [Value.dict []]]
    decide
  · have h2 := h.2.1 (by decide)
    rw [h2]
    decide

/-- C5 (code bug evaluation): on a table with a dock column, transform
    raises ValueError at the final fillna - the dock handling has created
    the dock_bay and dock_level columns, whose fillna dict entries carry a
    None fill value that pandas rejects - so the claimed extraction output
    (dock dropped, bay and level values in dock_bay and dock_level) is never
    produced. -/
theorem transform_dock_raises :
    transform_for_postgres dfDock =
      .error "ValueError: Must specify a fill value or method" := by decide

/-- C6: a present services column is mapped cell-wise: a non-empty list of
    strings becomes its comma join, and every other cell (empty list, missing
    value or non-list value) becomes the empty string. -/
theorem transform_services_join (df u : Table)
    (h : transform_for_postgres df = .ok u) :
    u.lookup "services" = (df.lookup "services").map (List.map joinServices) ∧
    (∀ l, l ≠ [] →
      joinServices (.list l) = .str (String.intercalate "," l)) ∧
    (∀ v, (∀ l, v = .list l → l = []) → joinServices v = .str "") := by
  refine ⟨transform_lookup_services df u h, ?_, ?_⟩
  · intro l hl
    cases l with
    | nil => exact absurd rfl hl
    | cons a as => rfl
  · intro v hv
    cases v with
    | list l =>
        cases l with
        | nil => rfl
        | cons a as => exact List.noConfusion (hv _ rfl)
    | null => rfl
    | bool b => rfl
    | num q => rfl
    | str s => rfl
    | dict d => rfl
    | timestamp t => rfl
    | date d => rfl

/-- C6 witness: services cells list fuel repair, empty list, missing and a
    plain string become fuel,repair and three empty strings. -/
theorem transform_services_join_witness :
    List.lookup "services" dfServicesMixedOut =
      some [Value.str "fuel,repair", Value.str "", Value.str "",
        Value.str ""] := by
  have h := (transform_services_join dfServicesMixed dfServicesMixedOut
    (by decide)).1
  rw [h]; decide

/-- C7 counterexample: on a table with no dock column, the output of
    transform has no dock_bay or dock_level column at all, refuting the
    claim that those columns hold explicit nulls for every input without a
    dock structure. -/
theorem transform_dock_nulls_cex :
    transform_for_postgres dfNoDock = .ok dfNoDock ∧
    hasCol dfNoDock "dock_bay" = false ∧
    hasCol dfNoDock "dock_level" = false := by decide

/-- C7 (amended): transform never produces explicit dock_bay or dock_level
    nulls: a successful run requires dock, dock_bay and dock_level to be
    absent from the input, and the output then has no dock_bay or dock_level
    column either; whenever a dock column is present - the case that would
    have produced the claimed explicit nulls - transform raises ValueError
    at the fillna step (None fill value on the freshly created columns)
    instead of returning a table. -/
theorem transform_dock_nulls_amended (df u : Table) :
    (transform_for_postgres df = .ok u →
      hasCol df "dock" = false ∧ hasCol df "dock_bay" = false ∧
      hasCol df "dock_level" = false ∧
      u.lookup "dock_bay" = none ∧ u.lookup "dock_level" = none) ∧
    (hasCol df "dock" = true → (transform_for_postgres df).isOk = false) := by
  constructor
  · intro h
    obtain ⟨hd, hb, hl, _, hub, hul⟩ := transform_ok_no_dock_cols df u h
    exact ⟨hd, hb, hl, hub, hul⟩
  · intro hd
    rw [transform_isOk, hd]
    simp

/-- C7 witness: the output of a dock-free run carries no dock_bay column,
    and a table whose dock column holds a missing cell makes transform
    fail rather than produce explicit nulls. -/
theorem transform_dock_nulls_witness :
    List.lookup "dock_bay" dfServicesNormalOut = none ∧
    (transform_for_postgres dfDockNull).isOk = false :=
  ⟨((transform_dock_nulls_amended dfServicesNormal dfServicesNormalOut).1
      (by decide)).2.2.2.1,
    (transform_dock_nulls_amended dfDockNull []).2 (by decide)⟩

/-- C9: get_processed_files never raises: it is a total function of the
    collaborator outcome that returns the empty set when the query raised,
    and exactly the set of first-cell filenames of the returned rows when
    the query succeeded with well-formed rows. -/
theorem get_processed_files_spec (b : Except String (List (List String))) :
    (∀ e, b = .error e → get_processed_files b = []) ∧
    (∀ rows, b = .ok rows → (∀ r ∈ rows, r ≠ []) →
      ∀ f, f ∈ get_processed_files b ↔ ∃ r ∈ rows, r.head? = some f) := by
  constructor
  · rintro e rfl; rfl
  · rintro rows rfl hrows f
    unfold get_processed_files
    obtain ⟨l2, hl2, hiff⟩ := heads_mapExcept rows hrows
    rw [bindE_ok, hl2]
    show f ∈ l2.dedup ↔ _
    rw [List.mem_dedup]
    exact hiff f

/-- C9 witness: a failing query yields the empty set; a successful query
    over three rows yields a set containing the repeated filename once. -/
theorem get_processed_files_witness :
    get_processed_files (.error "connection refused") = [] ∧
    "alpha.parquet" ∈ get_processed_files
      (.ok [["alpha.parquet"], ["beta.parquet"], ["alpha.parquet"]]) :=
  ⟨(get_processed_files_spec _).1 "connection refused" rfl,
    ((get_processed_files_spec _).2 _ rfl (by decide) "alpha.parquet").mpr
      (by decide)⟩

/-- C10: every column whose name is not one of the claimed eleven names
    appears in the output of a successful transform run with presence and
    every value unchanged.  Successful runs never involve dock_bay or
    dock_level (those columns being present makes the final fillna raise),
    so the columns transform writes are exactly within the claimed set. -/
theorem transform_untouched_columns (df u : Table) (c : String)
    (h : transform_for_postgres df = .ok u)
    (hc : c ∉ ["dock", "services", "visited_at", "arrival_date",
      "price_per_unit", "total_cost", "fuel_units", "coords_x", "coords_y",
      "station_id", "is_emergency"]) :
    u.lookup c = df.lookup c := by
  by_cases hbay : c = "dock_bay"
  · obtain ⟨_, hdfb, _, _, hub, _⟩ := transform_ok_no_dock_cols df u h
    rw [hbay, hub, lookup_none_of_hasCol_false df _ hdfb]
  · by_cases hlev : c = "dock_level"
    · obtain ⟨_, _, hdfl, _, _, hul⟩ := transform_ok_no_dock_cols df u h
      rw [hlev, hul, lookup_none_of_hasCol_false df _ hdfl]
    · apply transform_lookup_untouched df u c h
      intro hmem
      unfold touched_columns at hmem
      rcases List.mem_append.mp hmem with hmem | hmem
      · rcases List.mem_append.mp hmem with hmem | hmem
        · simp at hmem
          rcases hmem with rfl | rfl | rfl | rfl | rfl | rfl
          · exact hc (by decide)
          · exact hbay rfl
          · exact hlev rfl
          · exact hc (by decide)
          · exact hc (by decide)
          · exact hc (by decide)
        · simp [numeric_columns, decimal_columns, float_columns,
            int_columns] at hmem
          rcases hmem with rfl | rfl | rfl | rfl | rfl | rfl <;>
            exact hc (by decide)
      · simp at hmem
        rw [hmem] at hbay hlev hc
        exact hc (by decide)

/-- C10 witness: a cargo column passes through a transform run that rewrites
    the services column next to it. -/
theorem transform_untouched_columns_witness :
    List.lookup "cargo" dfCargoMixOut = List.lookup "cargo" dfCargoMix :=
  transform_untouched_columns dfCargoMix dfCargoMixOut "cargo"
    (by decide) (by decide)

end FuelETL
